import Mathlib

/-!
Verification of the exile-rs PoB manager against its specification.

The repository's frontend (Svelte/TypeScript) is embedded shallowly below:
each pure derivation (`hasUpdate`, `appStatus`, `handleError`, the alert
variant logic, the settings store, the updater store) becomes a Lean
function over explicit state values.  The Rust backend (version resolver,
install pipeline, install-record store) is not part of the frontend
sources; where a claim depends on it, the relevant operation is modelled
from the specification, and each such definition says so in its doc
comment.
-/

namespace ExileRs

/-! ## Version resolver (backend, modelled from the spec) -/

/-- Modelled from the spec: greedy digit scan used by the version resolver.
Splits a character list into its maximal leading run of ASCII digits and
the remainder. -/
def digitSpan : List Char → List Char × List Char
  | [] => ([], [])
  | c :: cs =>
    if c.isDigit then
      let p := digitSpan cs
      (c :: p.1, p.2)
    else ([], c :: cs)

/-- Modelled from the spec: matches a maximal run of `.digits` groups at the
head of the input (the `(\.\d+)+` tail of a version token).  The fuel
argument only bounds recursion depth; `matchDotGroups` supplies enough. -/
def dotGroupsFuel : Nat → List Char → List Char
  | 0, _ => []
  | _ + 1, [] => []
  | fuel + 1, c :: cs =>
    if c = '.' then
      let p := digitSpan cs
      if p.1 = [] then [] else '.' :: (p.1 ++ dotGroupsFuel fuel p.2)
    else []

/-- Modelled from the spec: the `.digits` tail matcher with sufficient fuel. -/
def matchDotGroups (cs : List Char) : List Char := dotGroupsFuel cs.length cs

/-- Modelled from the spec: tries to match a dot-separated numeric version
token (`digits(.digits)+`) starting at the head of the input. -/
def matchVersionAt (cs : List Char) : Option (List Char) :=
  let p := digitSpan cs
  if p.1 = [] then none
  else
    let g := matchDotGroups p.2
    if g = [] then none else some (p.1 ++ g)

/-- Modelled from the spec: leftmost match of a dot-separated numeric
version token inside an arbitrary character list (first match wins). -/
def findVersion : List Char → Option (List Char)
  | [] => none
  | c :: cs =>
    match matchVersionAt (c :: cs) with
    | some v => some v
    | none => findVersion cs

/-- The backend error taxonomy (spec §7). -/
inductive ErrKind where
  | cancelled
  | network
  | ioErr
  | notFound
  | conflict
  | domain
deriving DecidableEq, Repr

/-- Modelled from the spec: `extractVersionToken` / the Rust `parseVersion`
command (spec §4.1), which is not under the frontend sources.  Extracts the
first dot-separated numeric run from an artifact name, or fails with a
`NotFound`-class error.  Total over arbitrary strings. -/
def parseVersion (name : String) : Except ErrKind String :=
  match findVersion name.data with
  | some v => Except.ok (String.mk v)
  | none => Except.error ErrKind.notFound

/-- A non-empty all-digit group introduced by a dot, repeated one or more
times: the `(\.\d+)+` tail of a version token, as a declarative predicate. -/
inductive DotGroups : List Char → Prop where
  | one (d : List Char) (hne : d ≠ []) (hd : ∀ c ∈ d, c.isDigit = true) :
      DotGroups ('.' :: d)
  | more (d g : List Char) (hne : d ≠ []) (hd : ∀ c ∈ d, c.isDigit = true)
      (hg : DotGroups g) : DotGroups ('.' :: (d ++ g))

/-- Declarative shape of a dot-separated numeric version token:
a non-empty digit run followed by one or more `.digits` groups. -/
inductive VersionShape : List Char → Prop where
  | mk (d g : List Char) (hne : d ≠ []) (hd : ∀ c ∈ d, c.isDigit = true)
      (hg : DotGroups g) : VersionShape (d ++ g)

/-! ## Frontend data model -/

/-- The installed-record value surfaced by `installedPobInfo`
(spec `InstallRecord`): version token, source artifact id, timestamp. -/
structure PobVersion where
  version : String
  sourceId : String
  installedAt : Nat
deriving DecidableEq, Repr

/-- Remote artifact metadata (spec `ArtifactRef`). -/
structure GoogleDriveFileInfo where
  id : String
  name : String
  isFolder : Bool
deriving DecidableEq, Repr

/-- Download strategy selector (spec `DownloadMode`). -/
inductive DownloadMode where
  | auto
  | parallel
  | single
deriving DecidableEq, Repr

/-- Pipeline phases (spec §3). -/
inductive Phase where
  | downloading
  | extracting
  | backingUp
  | moving
  | restoring
  | finalizing
  | uninstalling
deriving DecidableEq, Repr

/-- Progress status values (spec §3). -/
inductive ProgStatus where
  | started
  | inProgress
  | completed
  | failed
  | cancelled
deriving DecidableEq, Repr

/-- Transient progress event (spec `InstallProgress`); the `percent` float
is modelled as a rational, no arithmetic on it occurs in the code embedded
here. -/
structure InstallProgress where
  phase : Phase
  status : ProgStatus
  percent : Rat
deriving DecidableEq

/-- The serialized error value the frontend receives from the backend:
a string `kind` tag plus an optional message. -/
structure ErrorKindVal where
  kind : String
  message : Option String
deriving DecidableEq, Repr

/-- A toast notification shown to the user with `toast.error`. -/
structure ErrToast where
  title : String
  description : Option String
deriving DecidableEq, Repr

/-- The slice of the page component's reactive state touched by the
embedded handlers (`error`, `installProgress`, `isLoading`, plus the
record of error toasts shown so far). -/
structure PageState where
  error : Option ErrorKindVal
  installProgress : Option InstallProgress
  isLoading : Bool
  errToasts : List ErrToast
deriving DecidableEq

/-! ## Frontend derivations, from src/src/routes/+page.svelte -/

/-- `isInstalled` derived state: `installedVersion !== null`. -/
def isInstalled (installedVersion : Option PobVersion) : Bool :=
  installedVersion.isSome

/-- `hasUpdate` derived state (routes/+page.svelte lines 44-48):
`isInstalled && latestVersionString !== null &&
installedVersion!.version !== latestVersionString`. -/
def hasUpdate (installedVersion : Option PobVersion)
    (latestVersionString : Option String) : Bool :=
  match installedVersion, latestVersionString with
  | some iv, some s => iv.version != s
  | _, _ => false

/-- `isUpToDate` derived state (routes/+page.svelte lines 49-53):
`isInstalled && latestVersionString !== null &&
installedVersion!.version === latestVersionString`. -/
def isUpToDate (installedVersion : Option PobVersion)
    (latestVersionString : Option String) : Bool :=
  match installedVersion, latestVersionString with
  | some iv, some s => iv.version == s
  | _, _ => false

/-- The four-valued status of the alternate page (src/unnamed/part_001). -/
inductive AppStatus where
  | idle
  | update_available
  | updating
  | not_installed
deriving DecidableEq, Repr

/-- `appStatus` derived state (src/unnamed/part_001 lines 61-72), with
JavaScript string truthiness made explicit: `latestVersionString && ...`
is false for both `null` and the empty string. -/
def appStatus (installedVersion : Option PobVersion) (isInstalling : Bool)
    (latestVersionString : Option String) : AppStatus :=
  match installedVersion with
  | none => AppStatus.not_installed
  | some iv =>
    if isInstalling then AppStatus.updating
    else
      match latestVersionString with
      | some s =>
        if s != "" && iv.version != s then AppStatus.update_available
        else AppStatus.idle
      | none => AppStatus.idle

/-- `handleError` (routes/+page.svelte lines 91-97 and src/unnamed/part_001
lines 213-217): a `cancelled` kind returns immediately; any other kind sets
the visible error state and shows an error toast with the context title. -/
def handleError (errorKind : ErrorKindVal) (context : String)
    (st : PageState) : PageState :=
  if errorKind.kind == "cancelled" then st
  else
    { st with
      error := some { kind := errorKind.kind, message := errorKind.message },
      errToasts := st.errToasts ++ [{ title := context, description := errorKind.message }] }

/-- Modelled from the spec: the backend's `Cancelled` error value
(taxonomy §7) carries no message; the backend serializer is not under the
frontend sources. -/
def cancelledErrorVal : ErrorKindVal :=
  { kind := "cancelled", message := none }

/-- Alert variant of the error banner in routes/+page.svelte line 242:
`variant={error.kind === "conflict" ? "default" : "destructive"}`. -/
def alertVariant (kind : String) : String :=
  if kind == "conflict" then "default" else "destructive"

/-- Alert title of the error banner in routes/+page.svelte lines 244-250:
`경고` (warning) for a conflict, `오류` (error) otherwise. -/
def alertTitle (kind : String) : String :=
  if kind == "conflict" then "경고" else "오류"

/-- Alert variant of the error banner in src/unnamed/part_001 lines
357-374: `<Alert variant="destructive">` unconditionally, for every
surfaced (non-cancelled) error kind. -/
def altAlertVariant (_kind : String) : String := "destructive"

/-- The one backend command the embedded `install` action can issue. -/
inductive BackendCmd where
  | installPob (ref : GoogleDriveFileInfo) (mode : DownloadMode)
deriving DecidableEq

/-- The backend command issued by the alternate page's `install`, which
passes no download mode. -/
inductive BackendCmdAlt where
  | installPob (ref : GoogleDriveFileInfo)
deriving DecidableEq

/-- The synchronous prefix of `install` (routes/+page.svelte lines
147-168), up to dispatch of the `installPob` command: with no fetched
latest artifact it sets a `domain` error and returns without issuing any
command; otherwise it clears error/progress, sets loading, and issues
`installPob(latestVersion, downloadMode)`. -/
def installAction (latestVersion : Option GoogleDriveFileInfo)
    (downloadMode : DownloadMode) (st : PageState) :
    PageState × Option BackendCmd :=
  match latestVersion with
  | none =>
    ({ st with error := some { kind := "domain", message := some "먼저 최신 버전을 확인해주세요." } },
      none)
  | some lv =>
    ({ st with isLoading := true, error := none, installProgress := none },
      some (BackendCmd.installPob lv downloadMode))

/-- The synchronous prefix of `install` in the alternate page
(src/unnamed/part_001 lines 271-289): same guard, but the page has no
`isLoading` flag and the command carries no mode. -/
def installActionAlt (latestVersion : Option GoogleDriveFileInfo)
    (st : PageState) : PageState × Option BackendCmdAlt :=
  match latestVersion with
  | none =>
    ({ st with error := some { kind := "domain", message := some "먼저 최신 버전을 확인해주세요." } },
      none)
  | some lv =>
    ({ st with error := none, installProgress := none },
      some (BackendCmdAlt.installPob lv))

/-- The view-layer `localStorage` cell used by `setDownloadMode`
(routes/+page.svelte lines 26-33); distinct from any domain state. -/
structure UiStorage where
  downloadMode : Option String
deriving DecidableEq

/-- The string key stored for a download mode in `localStorage`. -/
def modeKey : DownloadMode → String
  | DownloadMode.auto => "auto"
  | DownloadMode.parallel => "parallel"
  | DownloadMode.single => "single"

/-- `setDownloadMode` (routes/+page.svelte lines 30-33): updates the
reactive variable and writes the UI preference to `localStorage`.  It
takes and returns no domain state. -/
def setDownloadMode (mode : DownloadMode) (_ls : UiStorage) :
    DownloadMode × UiStorage :=
  (mode, { downloadMode := some (modeKey mode) })

/-! ## Install pipeline and record store (backend, modelled from the spec) -/

/-- Contents of the install root, byte-for-byte. -/
abbrev Bytes := List Nat

/-- Modelled from the spec: the domain state owned by the pipeline — the
install root contents, the pipeline-private backup location, and the
persisted `InstallRecord` (spec §3, §5). -/
structure SysState where
  installRoot : Option Bytes
  backup : Option Bytes
  record : Option PobVersion
deriving DecidableEq

/-- Modelled from the spec: the outcome each pipeline step would have on
this run (conflict-guard answer, download/extract/backup/move/restore
results, and the staged extraction output), injected so that every
failure combination of spec §4.5 is expressible. -/
structure StepOutcomes where
  targetRunning : Bool
  download : Except ErrKind Unit
  extract : Except ErrKind Unit
  backupMove : Except ErrKind Unit
  moveStep : Except ErrKind Unit
  restoreStep : Except ErrKind Unit
  staged : Bytes

/-- Terminal result of a pipeline run (spec §4.5 step 8). -/
inductive Terminal where
  | completed
  | failed (reason : ErrKind)
  | cancelled
deriving DecidableEq, Repr

/-- Maps a step error to the terminal status: a `Cancelled` outcome ends
the run as `cancelled`, anything else as `failed` with that reason. -/
def termOf (e : ErrKind) : Terminal :=
  match e with
  | ErrKind.cancelled => Terminal.cancelled
  | e => Terminal.failed e

/-- Modelled from the spec: the install pipeline (spec §4.5), which lives
in the Rust backend and is not under the frontend sources.  Phases run in
order downloading → extracting → backingUp → moving → finalizing; backup
is skipped when nothing is installed; on a moving failure after a
completed backup the pipeline restores the backup and fails with the
original reason, unless the restore itself fails, which is surfaced as a
more severe `Io` failure.  The download mode only selects the download
strategy, whose outcome `env.download` already reflects, so the domain
state transition does not depend on it. -/
def runInstall (_mode : DownloadMode) (env : StepOutcomes) (st : SysState)
    (newRecord : PobVersion) : SysState × Terminal × List Phase :=
  if env.targetRunning then (st, Terminal.failed ErrKind.conflict, [])
  else
    match env.download with
    | Except.error e => (st, termOf e, [Phase.downloading])
    | Except.ok _ =>
      match env.extract with
      | Except.error e => (st, termOf e, [Phase.downloading, Phase.extracting])
      | Except.ok _ =>
        match st.installRoot with
        | none =>
          match env.moveStep with
          | Except.error e =>
            (st, Terminal.failed e,
              [Phase.downloading, Phase.extracting, Phase.backingUp, Phase.moving])
          | Except.ok _ =>
            ({ installRoot := some env.staged, backup := none, record := some newRecord },
              Terminal.completed,
              [Phase.downloading, Phase.extracting, Phase.backingUp, Phase.moving,
                Phase.finalizing])
        | some prev =>
          match env.backupMove with
          | Except.error e =>
            (st, Terminal.failed e,
              [Phase.downloading, Phase.extracting, Phase.backingUp])
          | Except.ok _ =>
            match env.moveStep with
            | Except.error e =>
              match env.restoreStep with
              | Except.ok _ =>
                ({ installRoot := some prev, backup := none, record := st.record },
                  Terminal.failed e,
                  [Phase.downloading, Phase.extracting, Phase.backingUp, Phase.moving,
                    Phase.restoring])
              | Except.error _ =>
                ({ installRoot := none, backup := some prev, record := st.record },
                  Terminal.failed ErrKind.ioErr,
                  [Phase.downloading, Phase.extracting, Phase.backingUp, Phase.moving,
                    Phase.restoring])
            | Except.ok _ =>
              ({ installRoot := some env.staged, backup := none, record := some newRecord },
                Terminal.completed,
                [Phase.downloading, Phase.extracting, Phase.backingUp, Phase.moving,
                  Phase.finalizing])

/-- Modelled from the spec: the uninstall run (spec §4.5) — conflict-guard
precondition, then the `uninstalling` phase removes the install root and
deletes the `InstallRecord`. -/
def runUninstall (targetRunning : Bool) (removal : Except ErrKind Unit)
    (st : SysState) : SysState × Terminal × List Phase :=
  if targetRunning then (st, Terminal.failed ErrKind.conflict, [])
  else
    match removal with
    | Except.error e => (st, Terminal.failed e, [Phase.uninstalling])
    | Except.ok _ =>
      ({ installRoot := none, backup := st.backup, record := none },
        Terminal.completed, [Phase.uninstalling])

/-- Modelled from the spec: `installedVersion()` reads the persisted
install record; its absence means not-installed (spec §3, §6). -/
def installedVersion (st : SysState) : Option PobVersion := st.record

/-- Modelled from the spec: the state before any successful install —
nothing installed, no backup, no record. -/
def initState : SysState :=
  { installRoot := none, backup := none, record := none }

/-- Modelled from the spec: the UI → pipeline data flow (spec §2) — resolve
the version token from the artifact's name, then run the pipeline, the new
install record carrying the resolved token, the artifact id and the install
timestamp (spec §3 `InstallRecord`, §4.5 step 7). -/
def installFlow (mode : DownloadMode) (env : StepOutcomes) (st : SysState)
    (ref : GoogleDriveFileInfo) (t : Nat) : SysState × Terminal × List Phase :=
  match parseVersion ref.name with
  | Except.error e => (st, Terminal.failed e, [])
  | Except.ok tok =>
    runInstall mode env st { version := tok, sourceId := ref.id, installedAt := t }

/-! ## Concrete fixtures used by witnesses and counterexamples -/

/-- A quiescent page state. -/
def pageState0 : PageState :=
  { error := none, installProgress := none, isLoading := false, errToasts := [] }

/-- All pipeline steps succeed; the staged extraction output is `[7]`. -/
def envAllOk : StepOutcomes :=
  { targetRunning := false, download := Except.ok (), extract := Except.ok (),
    backupMove := Except.ok (), moveStep := Except.ok (),
    restoreStep := Except.ok (), staged := [7] }

/-- The moving step fails with a `domain` error; the restore succeeds. -/
def envMoveFailRestoreOk : StepOutcomes :=
  { targetRunning := false, download := Except.ok (), extract := Except.ok (),
    backupMove := Except.ok (), moveStep := Except.error ErrKind.domain,
    restoreStep := Except.ok (), staged := [1, 2, 3] }

/-- The moving step fails with a `domain` error and the restore itself
then fails with an `Io` error. -/
def envMoveRestoreFail : StepOutcomes :=
  { targetRunning := false, download := Except.ok (), extract := Except.ok (),
    backupMove := Except.ok (), moveStep := Except.error ErrKind.domain,
    restoreStep := Except.error ErrKind.ioErr, staged := [1, 2, 3] }

/-- A system state with a prior 2.40.0 install whose root holds `[9, 9]`. -/
def stPrior : SysState :=
  { installRoot := some [9, 9], backup := none,
    record := some { version := "2.40.0", sourceId := "s", installedAt := 0 } }

/-- The new record a 2.40.1 install would write. -/
def recNew : PobVersion :=
  { version := "2.40.1", sourceId := "id1", installedAt := 1 }

/-- The latest fetched artifact used in witnesses. -/
def refOk : GoogleDriveFileInfo :=
  { id := "id1", name := "PathOfBuilding-2.40.1.zip", isFolder := true }

/-! ## Updater store, from src/src/lib/stores/updater.svelte.ts -/

/-- Opaque stand-in for the `Update` object returned by the Tauri updater
plugin's `check()`. -/
structure UpdateInfo where
  version : String
deriving DecidableEq, Repr

/-- The updater store state (updater.svelte.ts lines 4-20). -/
structure UpdateState where
  checking : Bool
  available : Bool
  downloading : Bool
  progress : Nat
  update : Option UpdateInfo
  error : Option String
deriving DecidableEq

/-- `checkForUpdate` (updater.svelte.ts lines 35-50).  The awaited
`check()` call either yields an optional update or throws a message;
both channels are the `outcome` argument.  The `try/catch/finally`
structure is made explicit: set `checking`, clear `error`, then on success
record the update and return it, on any thrown error record the message
and return `null`; `checking` is cleared on both paths by the `finally`. -/
def checkForUpdate (outcome : Except String (Option UpdateInfo))
    (st : UpdateState) : UpdateState × Option UpdateInfo :=
  let st1 := { st with checking := true, error := none }
  match outcome with
  | Except.ok u =>
    ({ st1 with update := u, available := u.isSome, checking := false }, u)
  | Except.error msg =>
    ({ st1 with error := some msg, checking := false }, none)

/-- The updater store's initial state (updater.svelte.ts lines 13-20). -/
def updState0 : UpdateState :=
  { checking := false, available := false, downloading := false,
    progress := 0, update := none, error := none }

/-! ## Settings store, from src/unnamed/part_000 -/

/-- The settings value (part_000 lines 3-5). -/
structure AppSettings where
  autoCheckUpdate : Bool
deriving DecidableEq, Repr

/-- `DEFAULT_SETTINGS` (part_000 lines 7-9). -/
def DEFAULT_SETTINGS : AppSettings := { autoCheckUpdate := true }

/-- The persisted `settings.json` store: the optional stored value of the
`autoCheckUpdate` key. -/
structure SettingsStore where
  autoCheckUpdate : Option Bool
deriving DecidableEq

/-- Module state of the settings store: the backing store plus the
reactive `settings` value. -/
structure SettingsSession where
  store : SettingsStore
  settings : AppSettings
deriving DecidableEq

/-- `loadSettings` (part_000 lines 14-18): reads the stored key, falls
back to the default when absent (`??`), updates the reactive value and
returns it. -/
def loadSettings (s : SettingsSession) : SettingsSession × AppSettings :=
  let v := s.store.autoCheckUpdate.getD DEFAULT_SETTINGS.autoCheckUpdate
  ({ s with settings := { autoCheckUpdate := v } }, { autoCheckUpdate := v })

/-- `setAutoCheckUpdate` (part_000 lines 20-24): writes and saves the key,
then updates the reactive value. -/
def setAutoCheckUpdate (value : Bool) (_s : SettingsSession) : SettingsSession :=
  { store := { autoCheckUpdate := some value },
    settings := { autoCheckUpdate := value } }

/-- `getSettings` (part_000 lines 26-28). -/
def getSettings (s : SettingsSession) : AppSettings := s.settings

/-! ## Helper lemmas about the version scanner -/

/-- The two components of `digitSpan` reassemble the input. -/
theorem digitSpan_append : ∀ cs : List Char, (digitSpan cs).1 ++ (digitSpan cs).2 = cs := by
  intro cs
  induction cs with
  | nil => rfl
  | cons c cs ih =>
    cases h : c.isDigit with
    | true => simp [digitSpan, h, ih]
    | false => simp [digitSpan, h]

/-- Every character in the first component of `digitSpan` is a digit. -/
theorem digitSpan_digits : ∀ cs : List Char, ∀ c ∈ (digitSpan cs).1, c.isDigit = true := by
  intro cs
  induction cs with
  | nil => intro c hc; simp [digitSpan] at hc
  | cons a cs ih =>
    intro c hc
    cases h : a.isDigit with
    | true =>
      simp only [digitSpan, h] at hc
      simp only [if_true] at hc
      rcases List.mem_cons.mp hc with rfl | hc
      · exact h
      · exact ih c hc
    | false => simp [digitSpan, h] at hc

/-- `digitSpan` splits a digit run followed by a non-digit boundary exactly
at that boundary. -/
theorem digitSpan_eq_of : ∀ (d rest : List Char),
    (∀ c ∈ d, c.isDigit = true) →
    (∀ c r, rest = c :: r → c.isDigit = false) →
    digitSpan (d ++ rest) = (d, rest) := by
  intro d
  induction d with
  | nil =>
    intro rest _ hr
    cases rest with
    | nil => rfl
    | cons c r => simp [digitSpan, hr c r rfl]
  | cons a d ih =>
    intro rest hd hr
    have ha : a.isDigit = true := hd a (List.mem_cons_self a d)
    have hrec := ih rest (fun c hc => hd c (List.mem_cons_of_mem a hc)) hr
    simp [digitSpan, ha, hrec]

/-- A digit at the head makes the digit span non-empty. -/
theorem digitSpan_fst_ne_nil {c : Char} {cs : List Char} (h : c.isDigit = true) :
    (digitSpan (c :: cs)).1 ≠ [] := by
  simp [digitSpan, h]

/-- Unfolding of the dot-group matcher at a leading dot. -/
theorem dotGroupsFuel_dot (fuel : Nat) (rest : List Char) :
    dotGroupsFuel (fuel + 1) ('.' :: rest)
      = if (digitSpan rest).1 = [] then []
        else '.' :: ((digitSpan rest).1 ++ dotGroupsFuel fuel (digitSpan rest).2) := by
  simp [dotGroupsFuel]

/-- Unfolding of `matchDotGroups` at a leading dot. -/
theorem matchDotGroups_dot (rest : List Char) :
    matchDotGroups ('.' :: rest)
      = if (digitSpan rest).1 = [] then []
        else '.' :: ((digitSpan rest).1 ++ dotGroupsFuel rest.length (digitSpan rest).2) := by
  simp only [matchDotGroups, List.length_cons]
  exact dotGroupsFuel_dot rest.length rest

/-- A non-empty result of the dot-group matcher is a well-shaped group run
and a prefix of the input, for any fuel. -/
theorem dotGroupsFuel_sound : ∀ (fuel : Nat) (cs : List Char),
    dotGroupsFuel fuel cs ≠ [] →
    DotGroups (dotGroupsFuel fuel cs) ∧ ∃ t, dotGroupsFuel fuel cs ++ t = cs := by
  intro fuel
  induction fuel with
  | zero => intro cs h; simp [dotGroupsFuel] at h
  | succ fuel ih =>
    intro cs h
    cases cs with
    | nil => simp [dotGroupsFuel] at h
    | cons c rest =>
      by_cases hc : c = '.'
      · subst hc
        rw [dotGroupsFuel_dot] at h ⊢
        by_cases hp : (digitSpan rest).1 = []
        · simp [hp] at h
        · rw [if_neg hp] at h ⊢
          by_cases hg : dotGroupsFuel fuel (digitSpan rest).2 = []
          · rw [hg, List.append_nil]
            constructor
            · exact DotGroups.one _ hp (fun c hc => digitSpan_digits rest c hc)
            · refine ⟨(digitSpan rest).2, ?_⟩
              rw [List.cons_append, digitSpan_append]
          · obtain ⟨hdg, t, ht⟩ := ih (digitSpan rest).2 hg
            constructor
            · exact DotGroups.more _ _ hp (fun c hc => digitSpan_digits rest c hc) hdg
            · refine ⟨t, ?_⟩
              rw [List.cons_append, List.append_assoc, ht, digitSpan_append]
      · simp [dotGroupsFuel, hc] at h

/-- A successful match at the head of the input is version-shaped and a
prefix of the input. -/
theorem matchVersionAt_sound {cs v : List Char} (h : matchVersionAt cs = some v) :
    VersionShape v ∧ ∃ t, v ++ t = cs := by
  simp only [matchVersionAt] at h
  by_cases hp : (digitSpan cs).1 = []
  · rw [if_pos hp] at h; exact absurd h (by simp)
  · rw [if_neg hp] at h
    by_cases hg : matchDotGroups (digitSpan cs).2 = []
    · rw [if_pos hg] at h; exact absurd h (by simp)
    · rw [if_neg hg] at h
      have hv : (digitSpan cs).1 ++ matchDotGroups (digitSpan cs).2 = v :=
        Option.some.inj h
      obtain ⟨hdg, t, ht⟩ := dotGroupsFuel_sound (digitSpan cs).2.length (digitSpan cs).2 hg
      constructor
      · rw [← hv]
        exact VersionShape.mk _ _ hp (fun c hc => digitSpan_digits cs c hc) hdg
      · refine ⟨t, ?_⟩
        rw [← hv, List.append_assoc]
        show (digitSpan cs).1 ++ (matchDotGroups (digitSpan cs).2 ++ t) = cs
        have : matchDotGroups (digitSpan cs).2 ++ t = (digitSpan cs).2 := ht
        rw [this, digitSpan_append]

/-- Inversion for `DotGroups`: the run starts with a dot and a non-empty
digit group. -/
theorem dotGroups_inv {g : List Char} (hg : DotGroups g) :
    ∃ d r, g = '.' :: (d ++ r) ∧ d ≠ [] ∧ ∀ c ∈ d, c.isDigit = true := by
  cases hg with
  | one d hne hd => exact ⟨d, [], by simp, hne, hd⟩
  | more d g hne hd _ => exact ⟨d, g, rfl, hne, hd⟩

/-- No version-shaped string is empty. -/
theorem versionShape_ne_nil {w : List Char} (hw : VersionShape w) : w ≠ [] := by
  cases hw with
  | mk d g hne _ _ =>
    cases d with
    | nil => exact absurd rfl hne
    | cons a d => simp

/-- Key completeness step: whenever a version-shaped string sits at the
head of the input, the head matcher succeeds. -/
theorem matchVersionAt_of_shape {w cs : List Char} (hw : VersionShape w)
    (hpre : ∃ t, w ++ t = cs) : matchVersionAt cs ≠ none := by
  obtain ⟨t, rfl⟩ := hpre
  cases hw with
  | mk d g hne hd hg =>
    obtain ⟨d1, r, rfl, hne1, hd1⟩ := dotGroups_inv hg
    have hre : (d ++ '.' :: (d1 ++ r)) ++ t = d ++ '.' :: ((d1 ++ r) ++ t) := by
      rw [List.append_assoc, List.cons_append]
    rw [hre]
    have hds : digitSpan (d ++ '.' :: ((d1 ++ r) ++ t))
        = (d, '.' :: ((d1 ++ r) ++ t)) := by
      apply digitSpan_eq_of d _ hd
      intro c r' hcr
      have hc : c = '.' := by
        have := congrArg List.head? hcr
        simpa using this.symm
      rw [hc]
      decide
    cases d1 with
    | nil => exact absurd rfl hne1
    | cons a d1' =>
      have ha : a.isDigit = true := hd1 a (List.mem_cons_self a d1')
      intro hnone
      simp only [matchVersionAt, hds] at hnone
      rw [if_neg hne] at hnone
      have hrw : ((a :: d1') ++ r) ++ t = a :: ((d1' ++ r) ++ t) := by
        simp [List.append_assoc]
      rw [hrw] at hnone
      rw [matchDotGroups_dot] at hnone
      rw [if_neg (digitSpan_fst_ne_nil ha)] at hnone
      rw [if_neg (by simp)] at hnone
      exact Option.noConfusion hnone

/-- Soundness of the leftmost scan: every result is version-shaped and an
infix of the input. -/
theorem findVersion_sound : ∀ {cs v : List Char}, findVersion cs = some v →
    VersionShape v ∧ v <:+: cs := by
  intro cs
  induction cs with
  | nil => intro v h; simp [findVersion] at h
  | cons c cs ih =>
    intro v h
    cases hm : matchVersionAt (c :: cs) with
    | some w =>
      simp only [findVersion, hm] at h
      obtain rfl : w = v := by simpa using h
      obtain ⟨hs, t, ht⟩ := matchVersionAt_sound hm
      exact ⟨hs, ⟨[], t, by simpa using ht⟩⟩
    | none =>
      simp only [findVersion, hm] at h
      obtain ⟨hs, s, t, hst⟩ := ih h
      exact ⟨hs, ⟨c :: s, t, by simp [hst]⟩⟩

/-- Completeness of the leftmost scan: a `none` answer means the input has
no version-shaped infix at all. -/
theorem findVersion_complete : ∀ {cs : List Char}, findVersion cs = none →
    ∀ w, VersionShape w → ¬ w <:+: cs := by
  intro cs
  induction cs with
  | nil =>
    intro _ w hw hinf
    obtain ⟨s, t, hst⟩ := hinf
    have hwnil : w = [] := by
      have h1 := List.append_eq_nil.mp hst
      exact (List.append_eq_nil.mp h1.1).2
    exact versionShape_ne_nil hw hwnil
  | cons c cs ih =>
    intro h w hw hinf
    have hm : matchVersionAt (c :: cs) = none := by
      cases hm : matchVersionAt (c :: cs) with
      | some v => simp [findVersion, hm] at h
      | none => rfl
    have h2 : findVersion cs = none := by
      simpa only [findVersion, hm] using h
    obtain ⟨s, t, hst⟩ := hinf
    cases s with
    | nil =>
      exact matchVersionAt_of_shape hw ⟨t, by simpa using hst⟩ hm
    | cons a s =>
      simp only [List.cons_append] at hst
      exact ih h2 w hw ⟨s, t, (List.cons.injEq _ _ _ _ ▸ hst).2⟩

/-- First match wins: the scan result sits at the leftmost position where
any version-shaped string starts. -/
theorem findVersion_first : ∀ {cs v : List Char}, findVersion cs = some v →
    ∃ s t, s ++ (v ++ t) = cs ∧
      ∀ i < s.length, ∀ w, VersionShape w → ¬ ∃ u, w ++ u = cs.drop i := by
  intro cs
  induction cs with
  | nil => intro v h; simp [findVersion] at h
  | cons c cs ih =>
    intro v h
    cases hm : matchVersionAt (c :: cs) with
    | some w =>
      simp only [findVersion, hm] at h
      obtain rfl : w = v := by simpa using h
      obtain ⟨-, t, ht⟩ := matchVersionAt_sound hm
      exact ⟨[], t, by simpa using ht, by simp⟩
    | none =>
      simp only [findVersion, hm] at h
      obtain ⟨s, t, hst, hfirst⟩ := ih h
      refine ⟨c :: s, t, by simp [hst], ?_⟩
      intro i hi w hw hex
      cases i with
      | zero =>
        simp only [List.drop_zero] at hex
        exact matchVersionAt_of_shape hw hex hm
      | succ j =>
        have hj : j < s.length := by simpa using hi
        exact hfirst j hj w hw (by simpa using hex)

/-- Tokens produced by the resolver are never the empty string. -/
theorem parseVersion_tok_ne_empty {name v : String}
    (h : parseVersion name = Except.ok v) : v ≠ "" := by
  simp only [parseVersion] at h
  cases hf : findVersion name.data with
  | none => simp [hf] at h
  | some u =>
    simp only [hf] at h
    obtain rfl : String.mk u = v := by simpa using h
    obtain ⟨hs, -⟩ := findVersion_sound hf
    intro he
    have : u = [] := by
      have := congrArg String.data he
      simpa using this
    exact versionShape_ne_nil hs this

/-- `termOf` never yields the `completed` terminal status. -/
theorem termOf_ne_completed (e : ErrKind) : termOf e ≠ Terminal.completed := by
  cases e <;> simp [termOf]

/-! ## Claim theorems -/

/-- C4: for every artifact name containing a dot-separated numeric version
substring, `parseVersion` returns such a substring (version-shaped, an
infix of the name, and starting at the leftmost position at which any
version-shaped string starts — first match wins); for every name with no
such substring, including the empty string, it fails with the
`NotFound`-class error and with no other error kind.  The function is a
total Lean function over arbitrary strings, so it never panics and has no
side effects. -/
theorem c4_parseVersion_spec (name : String) :
    (∀ v, parseVersion name = Except.ok v →
      VersionShape v.data ∧ v.data <:+: name.data ∧
      ∃ s t, s ++ (v.data ++ t) = name.data ∧
        ∀ i < s.length, ∀ w, VersionShape w → ¬ ∃ u, w ++ u = name.data.drop i) ∧
    (parseVersion name = Except.error ErrKind.notFound ↔
      ∀ w, VersionShape w → ¬ w <:+: name.data) ∧
    (∀ e, parseVersion name = Except.error e → e = ErrKind.notFound) := by
  refine ⟨?_, ⟨?_, ?_⟩, ?_⟩
  · intro v hv
    simp only [parseVersion] at hv
    cases hf : findVersion name.data with
    | none => simp [hf] at hv
    | some u =>
      simp only [hf] at hv
      obtain rfl : String.mk u = v := by simpa using hv
      obtain ⟨hs, hinf⟩ := findVersion_sound hf
      obtain ⟨s, t, hst, hfirst⟩ := findVersion_first hf
      exact ⟨hs, hinf, s, t, by simpa [List.append_assoc] using hst, hfirst⟩
  · intro he w hw
    simp only [parseVersion] at he
    cases hf : findVersion name.data with
    | none => exact findVersion_complete hf w hw
    | some u => simp [hf] at he
  · intro hnone
    simp only [parseVersion]
    cases hf : findVersion name.data with
    | none => rfl
    | some u =>
      obtain ⟨hs, hinf⟩ := findVersion_sound hf
      exact absurd hinf (hnone u hs)
  · intro e he
    simp only [parseVersion] at he
    cases hf : findVersion name.data with
    | none => exact (by simpa [hf] using he : ErrKind.notFound = e).symm
    | some u => simp [hf] at he

/-- C4 witness: on `PathOfBuilding-2.40.1.zip` the resolver succeeds and
the theorem yields a version-shaped infix; on the empty string the theorem
forces the `NotFound` error. -/
theorem c4_parseVersion_spec_witness :
    (VersionShape "2.40.1".data ∧ "2.40.1".data <:+: "PathOfBuilding-2.40.1.zip".data) ∧
    parseVersion "" = Except.error ErrKind.notFound ∧
    parseVersion "PathOfBuilding-2.40.1.zip" = Except.ok "2.40.1" := by
  have h := (c4_parseVersion_spec "PathOfBuilding-2.40.1.zip").1 "2.40.1" rfl
  exact ⟨⟨h.1, h.2.1⟩, rfl, rfl⟩

/-- C1 counterexample: while an install is in progress, the alternate
page's `appStatus` (src/unnamed/part_001) reports `updating`, not
`update_available`, even though the installed version differs from the
parsed latest token — so "reports update available iff the tokens are not
string-equal" fails as a statement about every reporting state. -/
theorem c1_counterexample :
    ¬ (∀ (pv : PobVersion) (installing : Bool) (tok : String),
        (appStatus (some pv) installing (some tok) = AppStatus.update_available
          ↔ pv.version ≠ tok)) := by
  intro h
  have hc := (h { version := "2.40.0", sourceId := "a", installedAt := 0 }
    true "2.40.1").mpr (by decide)
  exact absurd hc (by decide)

/-- C1 amended: for an installed record and a latest artifact whose name
was parsed into a version token, `hasUpdate` holds iff the installed
version is not string-equal to the token and `isUpToDate` holds iff it is
string-equal (routes/+page.svelte); the alternate page's `appStatus`
satisfies the same iff while no install is in progress.  Only string
equality is consulted — no ordering or semver comparison appears in any of
these definitions. -/
theorem c1_amended (pv : PobVersion) (name tok : String)
    (hp : parseVersion name = Except.ok tok) :
    (hasUpdate (some pv) (some tok) = true ↔ pv.version ≠ tok) ∧
    (isUpToDate (some pv) (some tok) = true ↔ pv.version = tok) ∧
    (appStatus (some pv) false (some tok) = AppStatus.update_available
      ↔ pv.version ≠ tok) ∧
    (appStatus (some pv) false (some tok) = AppStatus.idle ↔ pv.version = tok) := by
  have htok : tok ≠ "" := parseVersion_tok_ne_empty hp
  refine ⟨by simp [hasUpdate], by simp [isUpToDate], ?_, ?_⟩
  · by_cases hvt : pv.version = tok
    · simp [appStatus, hvt]
    · simp [appStatus, htok, hvt]
  · by_cases hvt : pv.version = tok
    · simp [appStatus, hvt]
    · simp [appStatus, htok, hvt]

/-- C1 witness: installed `2.40.0` against parsed latest `2.40.1` reports
an update in both pages' derivations. -/
theorem c1_amended_witness :
    hasUpdate (some { version := "2.40.0", sourceId := "a", installedAt := 0 })
      (some "2.40.1") = true ∧
    appStatus (some { version := "2.40.0", sourceId := "a", installedAt := 0 })
      false (some "2.40.1") = AppStatus.update_available := by
  have h := c1_amended { version := "2.40.0", sourceId := "a", installedAt := 0 }
    "PathOfBuilding-2.40.1.zip" "2.40.1" rfl
  exact ⟨h.1.mpr (by decide), h.2.2.1.mpr (by decide)⟩

/-- C2: a `cancelled` error kind is a silent no-op for `handleError` — the
page state is returned unchanged, so neither the visible error state nor
the toast list is touched — and the backend's `Cancelled` outcome carries
no message. -/
theorem c2_cancelled_silent (ek : ErrorKindVal) (context : String)
    (st : PageState) (h : ek.kind = "cancelled") :
    handleError ek context st = st ∧
    (handleError ek context st).error = st.error ∧
    (handleError ek context st).errToasts = st.errToasts ∧
    cancelledErrorVal.message = none := by
  have hst : handleError ek context st = st := by simp [handleError, h]
  exact ⟨hst, by rw [hst], by rw [hst], rfl⟩

/-- C2 witness: handling the concrete cancelled error value leaves the
quiescent page state untouched. -/
theorem c2_cancelled_silent_witness :
    handleError cancelledErrorVal "설치 실패" pageState0 = pageState0 :=
  (c2_cancelled_silent cancelledErrorVal "설치 실패" pageState0 rfl).1

/-- C3 counterexample: the alternate page's error banner
(src/unnamed/part_001) renders the `conflict` kind with the destructive
variant, so "a non-destructive warning treatment exactly when the kind is
Conflict" is false of the repository's UI as a whole. -/
theorem c3_counterexample :
    ¬ (∀ kind : String, kind ≠ "cancelled" →
        ((alertVariant kind ≠ "destructive" ↔ kind = "conflict") ∧
          (altAlertVariant kind ≠ "destructive" ↔ kind = "conflict"))) := by
  intro h
  exact (h "conflict" (by decide)).2.mpr rfl rfl

/-- C3 amended: in routes/+page.svelte the alert uses the non-destructive
`default` variant and the warning title exactly when the kind is
`conflict`, and the destructive variant for every other kind; the
alternate page (src/unnamed/part_001) instead renders every surfaced error
with the destructive variant. -/
theorem c3_amended (kind : String) :
    (alertVariant kind = "default" ↔ kind = "conflict") ∧
    (alertVariant kind = "destructive" ↔ kind ≠ "conflict") ∧
    (alertTitle kind = "경고" ↔ kind = "conflict") ∧
    altAlertVariant kind = "destructive" := by
  by_cases h : kind = "conflict" <;>
    simp [alertVariant, alertTitle, altAlertVariant, h]

/-- C5 counterexample: when the restore step itself fails after a failed
move, the install root is not restored and the terminal reason is the
restore's `Io` classification rather than the original error — so the
claim, quantified over every run with a completed backup and a later
failure, is false at this input. -/
theorem c5_counterexample :
    ¬ (∀ (mode : DownloadMode) (env : StepOutcomes) (st : SysState)
        (nr : PobVersion) (prev : Bytes) (e : ErrKind),
        env.targetRunning = false → env.download = Except.ok () →
        env.extract = Except.ok () → st.installRoot = some prev →
        env.backupMove = Except.ok () → env.moveStep = Except.error e →
        Phase.restoring ∈ (runInstall mode env st nr).2.2 ∧
        (runInstall mode env st nr).1.installRoot = some prev ∧
        (runInstall mode env st nr).2.1 = Terminal.failed e) := by
  intro h
  have hc := h DownloadMode.auto envMoveRestoreFail stPrior recNew [9, 9]
    ErrKind.domain rfl rfl rfl rfl rfl rfl
  exact absurd hc.2.1 (by decide)

/-- C5 amended: in every install run whose backup step completed over a
prior install and whose moving step then fails, the pipeline enters the
restoring phase and never terminates `completed`; when the restore
succeeds the install root is restored to its pre-run contents
byte-for-byte and the run fails with the original error's reason, while a
failing restore is reported as the distinct, more severe `Io` failure. -/
theorem c5_amended (mode : DownloadMode) (env : StepOutcomes) (st : SysState)
    (nr : PobVersion) (prev : Bytes) (e : ErrKind)
    (h1 : env.targetRunning = false) (h2 : env.download = Except.ok ())
    (h3 : env.extract = Except.ok ()) (h4 : st.installRoot = some prev)
    (h5 : env.backupMove = Except.ok ()) (h6 : env.moveStep = Except.error e) :
    Phase.restoring ∈ (runInstall mode env st nr).2.2 ∧
    (runInstall mode env st nr).2.1 ≠ Terminal.completed ∧
    (env.restoreStep = Except.ok () →
      (runInstall mode env st nr).1.installRoot = some prev ∧
      (runInstall mode env st nr).2.1 = Terminal.failed e) ∧
    (∀ e2, env.restoreStep = Except.error e2 →
      (runInstall mode env st nr).2.1 = Terminal.failed ErrKind.ioErr) := by
  cases hr : env.restoreStep with
  | ok u => cases u; simp [runInstall, h1, h2, h3, h4, h5, h6, hr]
  | error e2 => simp [runInstall, h1, h2, h3, h4, h5, h6, hr]

/-- C5 witness: a concrete moving failure over the prior `[9, 9]` install
with a succeeding restore ends restored and `failed` with the original
`domain` reason. -/
theorem c5_amended_witness :
    Phase.restoring ∈ (runInstall DownloadMode.auto envMoveFailRestoreOk stPrior recNew).2.2 ∧
    (runInstall DownloadMode.auto envMoveFailRestoreOk stPrior recNew).1.installRoot
      = some [9, 9] ∧
    (runInstall DownloadMode.auto envMoveFailRestoreOk stPrior recNew).2.1
      = Terminal.failed ErrKind.domain := by
  have h := c5_amended DownloadMode.auto envMoveFailRestoreOk stPrior recNew
    [9, 9] ErrKind.domain rfl rfl rfl rfl rfl rfl
  exact ⟨h.1, (h.2.2.1 rfl).1, (h.2.2.1 rfl).2⟩

/-- C6: `installedVersion` is `none` in the initial state (before any
successful install); immediately after an install flow over an artifact
whose name resolves to a version token terminates `completed`, it returns
the record carrying exactly that token; and immediately after a successful
uninstall it is `none` again. -/
theorem c6_installedVersion_lifecycle (mode : DownloadMode) (env : StepOutcomes)
    (st : SysState) (ref : GoogleDriveFileInfo) (tok : String) (t : Nat)
    (running : Bool) (removal : Except ErrKind Unit)
    (hp : parseVersion ref.name = Except.ok tok) :
    installedVersion initState = none ∧
    ((installFlow mode env st ref t).2.1 = Terminal.completed →
      installedVersion (installFlow mode env st ref t).1
        = some { version := tok, sourceId := ref.id, installedAt := t }) ∧
    ((runUninstall running removal st).2.1 = Terminal.completed →
      installedVersion (runUninstall running removal st).1 = none) := by
  refine ⟨rfl, ?_, ?_⟩
  · intro hc
    simp only [installFlow, hp] at hc ⊢
    unfold runInstall at hc ⊢
    by_cases h1 : env.targetRunning
    · rw [if_pos h1] at hc; exact absurd hc (by simp)
    · rw [if_neg h1] at hc ⊢
      cases hd : env.download with
      | error e => simp only [hd] at hc; exact absurd hc (termOf_ne_completed e)
      | ok u =>
        cases u
        simp only [hd] at hc ⊢
        cases he : env.extract with
        | error e => simp only [he] at hc; exact absurd hc (termOf_ne_completed e)
        | ok u =>
          cases u
          simp only [he] at hc ⊢
          cases hroot : st.installRoot with
          | none =>
            simp only [hroot] at hc ⊢
            cases hm : env.moveStep with
            | error e => simp only [hm] at hc; exact absurd hc (by simp)
            | ok u => cases u; simp only [hm] at hc ⊢; rfl
          | some prev =>
            simp only [hroot] at hc ⊢
            cases hb : env.backupMove with
            | error e => simp only [hb] at hc; exact absurd hc (by simp)
            | ok u =>
              cases u
              simp only [hb] at hc ⊢
              cases hm : env.moveStep with
              | error e =>
                simp only [hm] at hc
                cases hr : env.restoreStep with
                | ok u => cases u; simp only [hr] at hc; exact absurd hc (by simp)
                | error e2 => simp only [hr] at hc; exact absurd hc (by simp)
              | ok u => cases u; simp only [hm] at hc ⊢; rfl
  · intro hc
    unfold runUninstall at hc ⊢
    by_cases h1 : running
    · rw [if_pos h1] at hc; exact absurd hc (by simp)
    · rw [if_neg h1] at hc ⊢
      cases hrm : removal with
      | error e => simp only [hrm] at hc; exact absurd hc (by simp)
      | ok u => cases u; simp only [hrm]; rfl

/-- C6 witness: starting from nothing installed, a fully successful flow
over `PathOfBuilding-2.40.1.zip` leaves the record `2.40.1`, and a
successful uninstall leaves `none`. -/
theorem c6_installedVersion_lifecycle_witness :
    installedVersion initState = none ∧
    installedVersion (installFlow DownloadMode.auto envAllOk initState refOk 5).1
      = some { version := "2.40.1", sourceId := "id1", installedAt := 5 } ∧
    installedVersion (runUninstall false (Except.ok ()) stPrior).1 = none := by
  have h := c6_installedVersion_lifecycle DownloadMode.auto envAllOk initState
    refOk "2.40.1" 5 false (Except.ok ()) rfl
  exact ⟨h.1, h.2.1 rfl, h.2.2 rfl⟩

/-- C7: the download mode is supplied per invocation — the `installPob`
command issued by the UI carries exactly the mode argument of that call —
and it is not persisted as domain state: the pipeline's domain-state
transition is invariant in the mode, and `setDownloadMode` writes only the
view-layer `localStorage` cell. -/
theorem c7_downloadMode_per_invocation (lv : GoogleDriveFileInfo)
    (mode m1 m2 : DownloadMode) (st : PageState) (ls : UiStorage)
    (env : StepOutcomes) (sys : SysState) (nr : PobVersion) :
    (installAction (some lv) mode st).2 = some (BackendCmd.installPob lv mode) ∧
    runInstall m1 env sys nr = runInstall m2 env sys nr ∧
    (setDownloadMode mode ls).1 = mode ∧
    (setDownloadMode mode ls).2 = { downloadMode := some (modeKey mode) } :=
  ⟨rfl, rfl, rfl, rfl⟩

/-- C8: invoking the UI install action with no fetched latest artifact
issues no backend command, sets the visible error to kind `domain` with a
message, and leaves the in-progress state (and the loading flag) unchanged
— in both page variants. -/
theorem c8_install_guard (mode : DownloadMode) (st : PageState) :
    (installAction none mode st).2 = none ∧
    (installAction none mode st).1.error
      = some { kind := "domain", message := some "먼저 최신 버전을 확인해주세요." } ∧
    (installAction none mode st).1.installProgress = st.installProgress ∧
    (installAction none mode st).1.isLoading = st.isLoading ∧
    (installActionAlt none st).2 = none ∧
    (installActionAlt none st).1.error
      = some { kind := "domain", message := some "먼저 최신 버전을 확인해주세요." } ∧
    (installActionAlt none st).1.installProgress = st.installProgress :=
  ⟨rfl, rfl, rfl, rfl, rfl, rfl, rfl⟩

/-- C9: `checkForUpdate` is total over both outcomes of the underlying
check (its `catch` swallows every thrown error, so it never throws):
`checking` is `false` after the call in both cases, a failure returns
`none` and records the failure message in `error`, and a success returns
the check's result with `error` cleared. -/
theorem c9_checkForUpdate_total (outcome : Except String (Option UpdateInfo))
    (st : UpdateState) :
    ((checkForUpdate outcome st).1.checking = false) ∧
    (∀ msg, outcome = Except.error msg →
      (checkForUpdate outcome st).2 = none ∧
      (checkForUpdate outcome st).1.error = some msg) ∧
    (∀ u, outcome = Except.ok u →
      (checkForUpdate outcome st).2 = u ∧
      (checkForUpdate outcome st).1.error = none) := by
  cases outcome with
  | ok u =>
    refine ⟨rfl, ?_, ?_⟩
    · intro msg hmsg; exact Except.noConfusion hmsg
    · intro u2 hu
      obtain rfl : u = u2 := Except.ok.inj hu
      exact ⟨rfl, rfl⟩
  | error msg =>
    refine ⟨rfl, ?_, ?_⟩
    · intro msg2 hmsg
      obtain rfl : msg = msg2 := Except.error.inj hmsg
      exact ⟨rfl, rfl⟩
    · intro u hu; exact Except.noConfusion hu

/-- C9 witness: a failed check on the initial updater state returns `null`
with the message recorded and `checking` cleared. -/
theorem c9_checkForUpdate_total_witness :
    (checkForUpdate (Except.error "boom") updState0).1.checking = false ∧
    (checkForUpdate (Except.error "boom") updState0).2 = none ∧
    (checkForUpdate (Except.error "boom") updState0).1.error = some "boom" := by
  have h := c9_checkForUpdate_total (Except.error "boom") updState0
  exact ⟨h.1, (h.2.1 "boom" rfl).1, (h.2.1 "boom" rfl).2⟩

/-- C10: `loadSettings` yields the stored boolean when the
`autoCheckUpdate` key is present and the default `true` when it is absent,
and after `setAutoCheckUpdate v` the value read back by `getSettings` is
`v`. -/
theorem c10_settings_roundtrip (s : SettingsSession) (b v : Bool) :
    (loadSettings { s with store := { autoCheckUpdate := some b } }).2.autoCheckUpdate = b ∧
    (loadSettings { s with store := { autoCheckUpdate := none } }).2.autoCheckUpdate = true ∧
    (loadSettings { s with store := { autoCheckUpdate := some b } }).1.settings
      = { autoCheckUpdate := b } ∧
    (getSettings (setAutoCheckUpdate v s)).autoCheckUpdate = v :=
  ⟨rfl, rfl, rfl, rfl⟩

end ExileRs
